import Mathlib

/-!
Shallow embedding of the locally-executed code of the
amazon-sagemaker-examples notebooks: the `UncorrelationMethod` class
(`fit` / `new_representation`) and the `deo_from_list` metric from the
fairness notebook, and the random train/validation/batch split masks from
the batch-transform notebook.  Numeric values are modelled as exact
rationals; datasets are lists of rows of rationals.
-/

namespace SagemakerFairness

/-- Coordinatewise mean of a list of rows at column `j`
(one coordinate of `np.mean(rows, 0)`); an out-of-range entry reads 0. -/
def meanAt (rows : List (List ℚ)) (j : ℕ) : ℚ :=
  (rows.map (fun r => r.getD j 0)).sum / (rows.length : ℚ)

/-- `np.mean(rows, 0)`: fails (`none`) on an empty list of rows, as numpy
does when the result is later sliced; otherwise the vector of coordinatewise
means, with as many coordinates as the first row. -/
def npMean : List (List ℚ) → Option (List ℚ)
  | [] => none
  | r :: t => some ((List.range r.length).map (fun j => meanAt (r :: t) j))

/-- State of the Python class `UncorrelationMethod`: `val0` is the group-A
marker value, `sensitive_feature` the index of the sensitive column, and `u`
the shift vector (`None` before `fit` is called). -/
structure UncorrelationMethod where
  val0 : ℚ
  sensitive_feature : ℕ
  u : Option (List ℚ)
deriving DecidableEq

/-- The positively-labeled group-A rows of `dataset`: the filter
`dataset[idx, -1] == 1 and ex[sensitive_feature] == val0` in `fit`. -/
def posGroupA (sf : ℕ) (val0 : ℚ) (dataset : List (List ℚ)) : List (List ℚ) :=
  dataset.filter (fun ex => decide (ex.getLastD 0 = 1) && decide (ex.getD sf 0 = val0))

/-- The positively-labeled group-B rows of `dataset`: the filter
`dataset[idx, -1] == 1 and ex[sensitive_feature] != val0` in `fit`. -/
def posGroupB (sf : ℕ) (val0 : ℚ) (dataset : List (List ℚ)) : List (List ℚ) :=
  dataset.filter (fun ex => decide (ex.getLastD 0 = 1) && !decide (ex.getD sf 0 = val0))

/-- `UncorrelationMethod.fit`: compute the coordinatewise means of the
positively-labeled rows of group A and of group B, drop the last (label)
coordinate of each mean vector, subtract them, and force the coordinate at
`sensitive_feature` to `-1`.  Fails (as the numpy code does by slicing a
scalar `nan`) when either subgroup is empty. -/
def UncorrelationMethod.fit (m : UncorrelationMethod) (dataset : List (List ℚ)) :
    Option UncorrelationMethod := do
  let average_A_1 ← npMean (posGroupA m.sensitive_feature m.val0 dataset)
  let average_not_A_1 ← npMean (posGroupB m.sensitive_feature m.val0 dataset)
  let u0 := List.zipWith (fun a b => a - b) average_A_1.dropLast average_not_A_1.dropLast
  some { m with u := some (u0.set m.sensitive_feature (-1)) }

/-- `UncorrelationMethod.new_representation`, as a state transformer so that
its (lack of) effect on the object is explicit: without a fitted `u` the
input is returned unchanged (after printing a warning); otherwise rows whose
sensitive coordinate equals the group-A marker pass through and the other
rows get `u` added elementwise, then the sensitive column is deleted from
every row (`np.delete(..., sensitive_feature, 1)`). -/
def UncorrelationMethod.new_representation (m : UncorrelationMethod)
    (examples : List (List ℚ)) : UncorrelationMethod × List (List ℚ) :=
  match m.u with
  | none => (m, examples)
  | some u =>
    let new_examples := examples.map (fun ex =>
      if ex.getD m.sensitive_feature 0 = m.val0 then ex
      else List.zipWith (fun a b => a + b) ex u)
    (m, new_examples.map (fun r => r.eraseIdx m.sensitive_feature))

/-- Binarized truth labels: `np.where(col == 1, 1, 0)`. -/
def binarize (col : List ℚ) : List ℕ :=
  col.map (fun y => if y = 1 then 1 else 0)

/-- The four entries `(tn, fp, fn, tp)` of sklearn's 2×2 confusion matrix for
0/1 labels, counted over the paired (truth, prediction) list. -/
def confusionCells (pairs : List (ℕ × ℕ)) : ℕ × ℕ × ℕ × ℕ :=
  (pairs.countP (fun p => decide (p.1 = 0 ∧ p.2 = 0)),
   pairs.countP (fun p => decide (p.1 = 0 ∧ p.2 = 1)),
   pairs.countP (fun p => decide (p.1 = 1 ∧ p.2 = 0)),
   pairs.countP (fun p => decide (p.1 = 1 ∧ p.2 = 1)))

/-- Last column of the rows of `dataset` selected at `idxs`
(`dataset[idxs][:, -1]`). -/
def lastColAt (dataset : List (List ℚ)) (idxs : List ℕ) : List ℚ :=
  idxs.map (fun i => (dataset.getD i []).getLastD 0)

/-- Predictions selected at `idxs` (`predictions[idxs]`). -/
def predAt (predictions : List ℕ) (idxs : List ℕ) : List ℕ :=
  idxs.map (fun i => predictions.getD i 0)

/-- `deo_from_list`: compute each group's confusion cells, then return the
absolute difference of the two true-positive rates `tp / (tp + fn)`. -/
def deo_from_list (dataset : List (List ℚ)) (predictions : List ℕ)
    (groupA_idxs groupB_idxs : List ℕ) : ℚ :=
  let cA := confusionCells
    ((binarize (lastColAt dataset groupA_idxs)).zip (predAt predictions groupA_idxs))
  let cB := confusionCells
    ((binarize (lastColAt dataset groupB_idxs)).zip (predAt predictions groupB_idxs))
  |(cA.2.2.2 : ℚ) / ((cA.2.2.2 : ℚ) + (cA.2.2.1 : ℚ)) -
    (cB.2.2.2 : ℚ) / ((cB.2.2.2 : ℚ) + (cB.2.2.1 : ℚ))|

/-- True-positive rate of a paired (truth, prediction) list: the fraction of
actual positives that are predicted positive. -/
def truePositiveRate (pairs : List (ℕ × ℕ)) : ℚ :=
  (pairs.countP (fun p => decide (p.1 = 1 ∧ p.2 = 1)) : ℚ) /
    (pairs.countP (fun p => decide (p.1 = 1)) : ℚ)

/-- Train mask of the batch-transform notebook: `rand_split < 0.8`. -/
def train_list (r : ℚ) : Bool := decide (r < 8/10)

/-- Validation mask: `(rand_split >= 0.8) & (rand_split < 0.9)`. -/
def val_list (r : ℚ) : Bool := decide (8/10 ≤ r) && decide (r < 9/10)

/-- Batch mask: `rand_split >= 0.9`. -/
def batch_list (r : ℚ) : Bool := decide (9/10 ≤ r)

theorem getD_eq_get {α : Type} (l : List α) (d : α) {i : ℕ} (h : i < l.length) :
    l.getD i d = l[i] := by
  simp [List.getD_eq_getElem?_getD, List.getElem?_eq_getElem h]

theorem mem_posGroupA {sf : ℕ} {val0 : ℚ} {dataset : List (List ℚ)} {r : List ℚ} :
    r ∈ posGroupA sf val0 dataset ↔
      r ∈ dataset ∧ r.getLastD 0 = 1 ∧ r.getD sf 0 = val0 := by
  simp [posGroupA, List.mem_filter, and_assoc]

theorem mem_posGroupB {sf : ℕ} {val0 : ℚ} {dataset : List (List ℚ)} {r : List ℚ} :
    r ∈ posGroupB sf val0 dataset ↔
      r ∈ dataset ∧ r.getLastD 0 = 1 ∧ ¬ r.getD sf 0 = val0 := by
  simp [posGroupB, List.mem_filter, and_assoc]

theorem npMean_ne_nil {rows : List (List ℚ)} {v : List ℚ}
    (hv : npMean rows = some v) : rows ≠ [] := by
  intro hnil
  rw [hnil] at hv
  simp [npMean] at hv

theorem npMean_length {rows : List (List ℚ)} {v : List ℚ} {d : ℕ}
    (hrows : ∀ r ∈ rows, r.length = d) (hv : npMean rows = some v) :
    v.length = d := by
  cases rows with
  | nil => simp [npMean] at hv
  | cons r t =>
    simp only [npMean, Option.some.injEq] at hv
    rw [← hv]
    simp [hrows r (by simp)]

theorem npMean_getD {rows : List (List ℚ)} {v : List ℚ} {d : ℕ} {j : ℕ}
    (hrows : ∀ r ∈ rows, r.length = d) (hv : npMean rows = some v) (hj : j < d) :
    v.getD j 0 = meanAt rows j := by
  cases rows with
  | nil => simp [npMean] at hv
  | cons r t =>
    simp only [npMean, Option.some.injEq] at hv
    have hrl : r.length = d := hrows r (by simp)
    have hjlen : j < v.length := by
      rw [← hv]
      simp [hrl, hj]
    rw [getD_eq_get v 0 hjlen]
    subst hv
    simp

theorem fit_eq_some {m m2 : UncorrelationMethod} {dataset : List (List ℚ)}
    (h : m.fit dataset = some m2) :
    ∃ aA aB,
      npMean (posGroupA m.sensitive_feature m.val0 dataset) = some aA ∧
      npMean (posGroupB m.sensitive_feature m.val0 dataset) = some aB ∧
      m2 = { m with u := some ((List.zipWith (fun a b => a - b)
        aA.dropLast aB.dropLast).set m.sensitive_feature (-1)) } := by
  unfold UncorrelationMethod.fit at h
  cases hA : npMean (posGroupA m.sensitive_feature m.val0 dataset) with
  | none => rw [hA] at h; simp at h
  | some aA =>
    cases hB : npMean (posGroupB m.sensitive_feature m.val0 dataset) with
    | none => rw [hA, hB] at h; simp at h
    | some aB =>
      rw [hA, hB] at h
      simp only [Option.bind_eq_bind, Option.some_bind, Option.some.injEq] at h
      exact ⟨aA, aB, rfl, rfl, h.symm⟩

theorem fit_u_spec {m m2 : UncorrelationMethod} {dataset : List (List ℚ)} {d : ℕ}
    (hd : ∀ r ∈ dataset, r.length = d)
    (hsf : m.sensitive_feature < d - 1)
    (hfit : m.fit dataset = some m2) :
    ∃ u, m2.u = some u ∧ u.length = d - 1 ∧
      u.getD m.sensitive_feature 0 = -1 ∧
      ∀ j, j < d - 1 → j ≠ m.sensitive_feature →
        u.getD j 0 = meanAt (posGroupA m.sensitive_feature m.val0 dataset) j -
                     meanAt (posGroupB m.sensitive_feature m.val0 dataset) j := by
  obtain ⟨aA, aB, hA, hB, hm2⟩ := fit_eq_some hfit
  have hdA : ∀ r ∈ posGroupA m.sensitive_feature m.val0 dataset, r.length = d :=
    fun r hr => hd r (mem_posGroupA.mp hr).1
  have hdB : ∀ r ∈ posGroupB m.sensitive_feature m.val0 dataset, r.length = d :=
    fun r hr => hd r (mem_posGroupB.mp hr).1
  have haA : aA.length = d := npMean_length hdA hA
  have haB : aB.length = d := npMean_length hdB hB
  refine ⟨_, by rw [hm2], ?_, ?_, ?_⟩
  · simp [haA, haB]
  · have hlen : m.sensitive_feature <
        ((List.zipWith (fun a b => a - b) aA.dropLast aB.dropLast).set
          m.sensitive_feature (-1)).length := by
      simp [haA, haB, hsf]
    rw [getD_eq_get _ 0 hlen]
    simp
  · intro j hj hjs
    have hlen : j < ((List.zipWith (fun a b => a - b) aA.dropLast aB.dropLast).set
        m.sensitive_feature (-1)).length := by
      simp [haA, haB, hj]
    rw [getD_eq_get _ 0 hlen]
    have hjA : j < aA.dropLast.length := by simp [haA, hj]
    have hjB : j < aB.dropLast.length := by simp [haB, hj]
    have hjA2 : j < aA.length := lt_of_lt_of_le hjA (by simp)
    have hjB2 : j < aB.length := lt_of_lt_of_le hjB (by simp)
    rw [List.getElem_set_ne (Ne.symm hjs), List.getElem_zipWith,
      List.getElem_dropLast, List.getElem_dropLast]
    rw [← getD_eq_get aA 0 hjA2, ← getD_eq_get aB 0 hjB2]
    rw [npMean_getD hdA hA (by omega), npMean_getD hdB hB (by omega)]

/-- C9: the three split masks of the batch-transform notebook partition the
possible random values: for every `r`, exactly one of `rand_split < 0.8`,
`0.8 ≤ rand_split < 0.9`, `rand_split ≥ 0.9` holds, so every row lands in
exactly one of `data_train`, `data_val`, `data_batch`. -/
theorem split_masks_partition (r : ℚ) :
    (train_list r = true ∧ val_list r = false ∧ batch_list r = false) ∨
    (train_list r = false ∧ val_list r = true ∧ batch_list r = false) ∨
    (train_list r = false ∧ val_list r = false ∧ batch_list r = true) := by
  rcases lt_or_le r (8/10 : ℚ) with h1 | h1
  · refine Or.inl ⟨decide_eq_true h1, ?_, ?_⟩
    · simp only [val_list, Bool.and_eq_false_iff]
      exact Or.inl (decide_eq_false (not_le.mpr h1))
    · exact decide_eq_false (not_le.mpr (lt_trans h1 (by norm_num)))
  · rcases lt_or_le r (9/10 : ℚ) with h2 | h2
    · refine Or.inr (Or.inl ⟨decide_eq_false (not_lt.mpr h1), ?_, ?_⟩)
      · simp only [val_list]
        rw [decide_eq_true h1, decide_eq_true h2]
        rfl
      · exact decide_eq_false (not_le.mpr h2)
    · refine Or.inr (Or.inr ⟨?_, ?_, decide_eq_true h2⟩)
      · exact decide_eq_false (not_lt.mpr (le_trans (by norm_num) h2))
      · simp only [val_list, Bool.and_eq_false_iff]
        exact Or.inr (decide_eq_false (not_lt.mpr h2))

/-- C4: when `fit` has never been called (`u` is `None`),
`new_representation` returns its input completely unchanged and leaves the
object as it was (the code only prints a warning). -/
theorem new_representation_unfitted (m : UncorrelationMethod)
    (examples : List (List ℚ)) (h : m.u = none) :
    m.new_representation examples = (m, examples) := by
  unfold UncorrelationMethod.new_representation
  rw [h]

/-- Witness for C4 at a concrete unfitted object and input. -/
theorem new_representation_unfitted_witness :
    (UncorrelationMethod.mk 0 1 none).new_representation [[3, 4], [5, 6]] =
      (UncorrelationMethod.mk 0 1 none, [[3, 4], [5, 6]]) :=
  new_representation_unfitted (UncorrelationMethod.mk 0 1 none) [[3, 4], [5, 6]] rfl

/-- C10: `new_representation` never modifies the state of the object:
`val0`, `sensitive_feature` and `u` are the same before and after every
call (the fields are only assigned in `__init__` and `fit`). -/
theorem new_representation_frame (m : UncorrelationMethod)
    (examples : List (List ℚ)) :
    (m.new_representation examples).1 = m := by
  unfold UncorrelationMethod.new_representation
  cases m.u <;> rfl

/-- C5: `fit` fails exactly when the positively-labeled part of group A or
of group B is empty; on any dataset where both are non-empty it succeeds. -/
theorem fit_none_iff (m : UncorrelationMethod) (dataset : List (List ℚ)) :
    m.fit dataset = none ↔
      posGroupA m.sensitive_feature m.val0 dataset = [] ∨
      posGroupB m.sensitive_feature m.val0 dataset = [] := by
  unfold UncorrelationMethod.fit
  cases hA : posGroupA m.sensitive_feature m.val0 dataset with
  | nil => simp [npMean]
  | cons a ta =>
    cases hB : posGroupB m.sensitive_feature m.val0 dataset with
    | nil => simp [npMean]
    | cons b tb => simp [npMean]

/-- C7: on a dataset whose rows all have `d` columns, a successful `fit`
produces a vector `u` with exactly one entry per feature, i.e. `d - 1`
entries: the group means are computed over all `d` columns and then
truncated by `[:-1]`, so `u` is index-aligned with the label-free feature
rows that `new_representation` receives. -/
theorem fit_u_length (m m2 : UncorrelationMethod) (dataset : List (List ℚ))
    (d : ℕ) (u : List ℚ)
    (hd : ∀ r ∈ dataset, r.length = d)
    (hfit : m.fit dataset = some m2) (hu : m2.u = some u) :
    u.length = d - 1 := by
  obtain ⟨aA, aB, hA, hB, hm2⟩ := fit_eq_some hfit
  have haA : aA.length = d :=
    npMean_length (fun r hr => hd r (mem_posGroupA.mp hr).1) hA
  have haB : aB.length = d :=
    npMean_length (fun r hr => hd r (mem_posGroupB.mp hr).1) hB
  rw [hm2] at hu
  simp only [Option.some.injEq] at hu
  rw [← hu]
  simp [haA, haB]

/-- Witness for C7 on a concrete 2-row, 3-column dataset. -/
theorem fit_u_length_witness : ([-1, -2] : List ℚ).length = 3 - 1 :=
  fit_u_length (UncorrelationMethod.mk 0 0 none)
    (UncorrelationMethod.mk 0 0 (some [-1, -2]))
    [[0, 5, 1], [1, 7, 1]] 3 [-1, -2]
    (by decide)
    (by norm_num [UncorrelationMethod.fit, npMean, posGroupA, posGroupB,
      meanAt, List.range_succ])
    rfl

/-- C2: `fit` sets `u` to the coordinatewise mean of the positively-labeled
group-A rows minus that of the positively-labeled group-B rows (label column
excluded) and then forces the entry at `sensitive_feature` to `-1`. -/
theorem fit_sets_u_to_mean_difference (m m2 : UncorrelationMethod)
    (dataset : List (List ℚ)) (d : ℕ) (u : List ℚ)
    (hd : ∀ r ∈ dataset, r.length = d)
    (hsf : m.sensitive_feature < d - 1)
    (hfit : m.fit dataset = some m2) (hu : m2.u = some u) :
    u.getD m.sensitive_feature 0 = -1 ∧
    ∀ j, j < d - 1 → j ≠ m.sensitive_feature →
      u.getD j 0 = meanAt (posGroupA m.sensitive_feature m.val0 dataset) j -
                   meanAt (posGroupB m.sensitive_feature m.val0 dataset) j := by
  obtain ⟨u2, hu2, _, hsfval, hcoord⟩ := fit_u_spec hd hsf hfit
  rw [hu] at hu2
  obtain rfl : u = u2 := Option.some.inj hu2
  exact ⟨hsfval, hcoord⟩

/-- Witness for C2 on a concrete 2-row, 3-column dataset with sensitive
index 0: `u = [-1, -2]` and the non-sensitive coordinate 1 carries the mean
difference `5 - 7`. -/
theorem fit_sets_u_to_mean_difference_witness :
    ([-1, -2] : List ℚ).getD 0 0 = -1 ∧
    ([-1, -2] : List ℚ).getD 1 0 =
      meanAt (posGroupA 0 0 [[0, 5, 1], [1, 7, 1]]) 1 -
      meanAt (posGroupB 0 0 [[0, 5, 1], [1, 7, 1]]) 1 := by
  have h := fit_sets_u_to_mean_difference (UncorrelationMethod.mk 0 0 none)
    (UncorrelationMethod.mk 0 0 (some [-1, -2]))
    [[0, 5, 1], [1, 7, 1]] 3 [-1, -2]
    (by decide) (by decide)
    (by norm_num [UncorrelationMethod.fit, npMean, posGroupA, posGroupB,
      meanAt, List.range_succ])
    rfl
  exact ⟨h.1, h.2 1 (by decide) (by decide)⟩

theorem set_getElem_self {α : Type} (l : List α) (i : ℕ) (a : α)
    (hi : i < l.length) (ha : l[i] = a) : l.set i a = l := by
  apply List.ext_getElem (by simp)
  intro j hj1 hj2
  rw [List.getElem_set]
  split
  · next heq =>
    subst heq
    exact ha.symm
  · rfl

theorem meanAt_of_all_eq {rows : List (List ℚ)} {j : ℕ} {c : ℚ}
    (hne : rows ≠ []) (hall : ∀ r ∈ rows, r.getD j 0 = c) :
    meanAt rows j = c := by
  unfold meanAt
  have hrepl : rows.map (fun r => r.getD j 0) =
      List.replicate rows.length c := by
    rw [List.eq_replicate_iff]
    constructor
    · simp
    · intro b hb
      obtain ⟨r, hr, hrb⟩ := List.mem_map.mp hb
      rw [← hrb]
      exact hall r hr
  rw [hrepl, List.sum_replicate, nsmul_eq_mul]
  have hlen : (rows.length : ℚ) ≠ 0 :=
    Nat.cast_ne_zero.mpr (fun h0 => hne (List.length_eq_zero.mp h0))
  rw [mul_comm, mul_div_assoc, div_self hlen, mul_one]

/-- C8: under the stated coding (sensitive value 0 on every positively-labeled
group-A row and 1 on every positively-labeled group-B row), the difference of
means at the sensitive coordinate is already `0 - 1 = -1`, so the forced
assignment `u[sensitive_feature] = -1.0` leaves `u` unchanged: the fitted `u`
equals the raw truncated mean difference. -/
theorem fit_force_minus_one_redundant (m m2 : UncorrelationMethod)
    (dataset : List (List ℚ)) (d : ℕ) (aA aB : List ℚ)
    (hval : m.val0 = 0)
    (hd : ∀ r ∈ dataset, r.length = d)
    (hsf : m.sensitive_feature < d - 1)
    (hB1 : ∀ r ∈ posGroupB m.sensitive_feature m.val0 dataset,
      r.getD m.sensitive_feature 0 = 1)
    (haA : npMean (posGroupA m.sensitive_feature m.val0 dataset) = some aA)
    (haB : npMean (posGroupB m.sensitive_feature m.val0 dataset) = some aB)
    (hfit : m.fit dataset = some m2) :
    m2.u = some (List.zipWith (fun a b => a - b) aA.dropLast aB.dropLast) := by
  obtain ⟨aA2, aB2, hA2, hB2, hm2⟩ := fit_eq_some hfit
  obtain rfl : aA = aA2 := Option.some.inj (haA ▸ hA2)
  obtain rfl : aB = aB2 := Option.some.inj (haB ▸ hB2)
  have hdA : ∀ r ∈ posGroupA m.sensitive_feature m.val0 dataset, r.length = d :=
    fun r hr => hd r (mem_posGroupA.mp hr).1
  have hdB : ∀ r ∈ posGroupB m.sensitive_feature m.val0 dataset, r.length = d :=
    fun r hr => hd r (mem_posGroupB.mp hr).1
  have hlA : aA.length = d := npMean_length hdA haA
  have hlB : aB.length = d := npMean_length hdB haB
  have hsd : m.sensitive_feature < d := by omega
  have hmA : meanAt (posGroupA m.sensitive_feature m.val0 dataset)
      m.sensitive_feature = 0 := by
    apply meanAt_of_all_eq (npMean_ne_nil haA)
    intro r hr
    rw [(mem_posGroupA.mp hr).2.2, hval]
  have hmB : meanAt (posGroupB m.sensitive_feature m.val0 dataset)
      m.sensitive_feature = 1 :=
    meanAt_of_all_eq (npMean_ne_nil haB) hB1
  have hsz : m.sensitive_feature <
      (List.zipWith (fun a b : ℚ => a - b) aA.dropLast aB.dropLast).length := by
    simp [hlA, hlB, hsf]
  have hv : (List.zipWith (fun a b : ℚ => a - b) aA.dropLast
      aB.dropLast)[m.sensitive_feature] = -1 := by
    have hsA : m.sensitive_feature < aA.dropLast.length := by simp [hlA, hsf]
    have hsB : m.sensitive_feature < aB.dropLast.length := by simp [hlB, hsf]
    have hsA2 : m.sensitive_feature < aA.length := by omega
    have hsB2 : m.sensitive_feature < aB.length := by omega
    rw [List.getElem_zipWith, List.getElem_dropLast, List.getElem_dropLast,
      ← getD_eq_get aA 0 hsA2, ← getD_eq_get aB 0 hsB2,
      npMean_getD hdA haA hsd, npMean_getD hdB haB hsd, hmA, hmB]
    norm_num
  rw [hm2]
  simp only [Option.some.injEq]
  exact set_getElem_self _ _ _ hsz hv

/-- Witness for C8 on a concrete dataset with sensitive values exactly 0 in
group A and 1 in group B. -/
theorem fit_force_minus_one_redundant_witness :
    (UncorrelationMethod.mk 0 0 (some [-1, -2])).u =
      some (List.zipWith (fun a b => a - b)
        ([0, 5, 1] : List ℚ).dropLast ([1, 7, 1] : List ℚ).dropLast) := by
  have h := fit_force_minus_one_redundant (UncorrelationMethod.mk 0 0 none)
    (UncorrelationMethod.mk 0 0 (some [-1, -2]))
    [[0, 5, 1], [1, 7, 1]] 3 [0, 5, 1] [1, 7, 1]
    rfl (by decide) (by decide)
    (by norm_num [posGroupB])
    (by norm_num [npMean, posGroupA, meanAt, List.range_succ])
    (by norm_num [npMean, posGroupB, meanAt, List.range_succ])
    (by norm_num [UncorrelationMethod.fit, npMean, posGroupA, posGroupB,
      meanAt, List.range_succ])
  exact h

/-- C3: on a fitted object, `new_representation` maps each row to itself
when its sensitive value equals the group-A marker and to the row plus `u`
elementwise otherwise, and in both cases deletes the sensitive column, so
every output row has exactly one fewer entry than its input row; group-A
rows come out identical to their input except for the dropped column. -/
theorem new_representation_fitted (m : UncorrelationMethod) (u : List ℚ)
    (examples : List (List ℚ)) (hu : m.u = some u)
    (hlen : ∀ ex ∈ examples, ex.length = u.length)
    (hsf : ∀ ex ∈ examples, m.sensitive_feature < ex.length) :
    List.Forall₂ (fun ex out =>
      out.length + 1 = ex.length ∧
      (ex.getD m.sensitive_feature 0 = m.val0 →
        out = ex.eraseIdx m.sensitive_feature) ∧
      (ex.getD m.sensitive_feature 0 ≠ m.val0 →
        out = (List.zipWith (fun a b => a + b) ex u).eraseIdx
          m.sensitive_feature))
    examples (m.new_representation examples).2 := by
  unfold UncorrelationMethod.new_representation
  rw [hu]
  simp only [List.map_map]
  rw [List.forall₂_map_right_iff, List.forall₂_same]
  intro ex hex
  simp only [Function.comp]
  by_cases hA : ex.getD m.sensitive_feature 0 = m.val0
  · rw [if_pos hA]
    refine ⟨?_, fun _ => rfl, fun hcon => absurd hA hcon⟩
    rw [List.length_eraseIdx_of_lt (hsf ex hex)]
    have := hsf ex hex
    omega
  · rw [if_neg hA]
    refine ⟨?_, fun hcon => absurd hcon hA, fun _ => rfl⟩
    have hzlen : (List.zipWith (fun a b : ℚ => a + b) ex u).length = ex.length := by
      simp [hlen ex hex]
    rw [List.length_eraseIdx_of_lt (by rw [hzlen]; exact hsf ex hex)]
    rw [hzlen]
    have := hsf ex hex
    omega

/-- Witness for C3 at a fitted object with `u = [10, 20]`, sensitive index 0
and marker 0: the group-A row `[0, 3]` passes through minus its first
column; the group-B row `[1, 4]` is shifted then truncated. -/
theorem new_representation_fitted_witness :
    List.Forall₂ (fun ex out =>
      out.length + 1 = ex.length ∧
      (ex.getD 0 0 = (0 : ℚ) → out = ex.eraseIdx 0) ∧
      (ex.getD 0 0 ≠ (0 : ℚ) →
        out = (List.zipWith (fun a b => a + b) ex [10, 20]).eraseIdx 0))
    [[0, 3], [1, 4]]
    ((UncorrelationMethod.mk 0 0 (some [10, 20])).new_representation
      [[0, 3], [1, 4]]).2 :=
  new_representation_fitted (UncorrelationMethod.mk 0 0 (some [10, 20]))
    [10, 20] [[0, 3], [1, 4]] rfl (by decide) (by decide)

theorem new_representation_some {m : UncorrelationMethod} {u : List ℚ}
    (hu : m.u = some u) (examples : List (List ℚ)) :
    (m.new_representation examples).2 =
      (examples.map (fun ex =>
        if ex.getD m.sensitive_feature 0 = m.val0 then ex
        else List.zipWith (fun a b => a + b) ex u)).map
        (fun r => r.eraseIdx m.sensitive_feature) := by
  unfold UncorrelationMethod.new_representation
  rw [hu]

theorem meanAt_map_congr (f : List ℚ → ℚ) {L : List (List ℚ)}
    {h : List ℚ → List ℚ} {k : ℕ} (hf : ∀ r ∈ L, (h r).getD k 0 = f r) :
    meanAt (L.map h) k = (L.map f).sum / (L.length : ℚ) := by
  unfold meanAt
  rw [List.map_map, List.length_map]
  simp only [Function.comp_def]
  rw [List.map_congr_left (fun r hr => hf r hr)]

theorem getD_dropLast {l : List ℚ} {j : ℕ} (hj : j < l.length - 1) :
    l.dropLast.getD j 0 = l.getD j 0 := by
  have h1 : j < l.dropLast.length := by simpa using hj
  rw [getD_eq_get _ 0 h1, getD_eq_get l 0 (by omega), List.getElem_dropLast]

theorem getD_eraseIdx_of_length (l : List ℚ) (sf k n : ℕ)
    (hl : l.length = n) (hsfn : sf < n) (hk : k < n - 1) :
    (l.eraseIdx sf).getD k 0 = l.getD (if k < sf then k else k + 1) 0 := by
  have hklen : k < (l.eraseIdx sf).length := by
    rw [List.length_eraseIdx_of_lt (by omega)]
    omega
  by_cases hks : k < sf
  · rw [if_pos hks, getD_eq_get _ 0 hklen, getD_eq_get l 0 (by omega)]
    exact List.getElem_eraseIdx_of_lt l sf k hklen hks
  · rw [if_neg hks, getD_eq_get _ 0 hklen,
      getD_eq_get l 0 (by omega : k + 1 < l.length)]
    exact List.getElem_eraseIdx_of_ge l sf k hklen (by omega)

theorem getD_zipWith_add {l u : List ℚ} {j : ℕ}
    (hj : j < l.length) (hju : j < u.length) :
    (List.zipWith (fun a b => a + b) l u).getD j 0 =
      l.getD j 0 + u.getD j 0 := by
  have hz : j < (List.zipWith (fun a b : ℚ => a + b) l u).length := by
    rw [List.length_zipWith]
    omega
  rw [getD_eq_get _ 0 hz, getD_eq_get l 0 hj, getD_eq_get u 0 hju,
    List.getElem_zipWith]

theorem sum_map_add_const (L : List (List ℚ)) (f : List ℚ → ℚ) (c : ℚ) :
    (L.map (fun r => f r + c)).sum = (L.map f).sum + (L.length : ℚ) * c := by
  induction L with
  | nil => simp
  | cons r t ih =>
    simp only [List.map_cons, List.sum_cons, List.length_cons, ih]
    push_cast
    ring

/-- C1: after a successful `fit` (both positively-labeled subgroups
non-empty), applying `new_representation` to the label-free feature rows of
the fitted dataset makes the per-coordinate difference of means between the
positively-labeled group-A rows and the positively-labeled group-B rows
exactly zero on every remaining coordinate after the sensitive column is
dropped. -/
theorem new_representation_equalizes_group_means
    (m m2 : UncorrelationMethod) (dataset : List (List ℚ)) (d : ℕ)
    (hd : ∀ r ∈ dataset, r.length = d)
    (hsf : m.sensitive_feature < d - 1)
    (hfit : m.fit dataset = some m2)
    (k : ℕ) (hk : k < d - 2) :
    meanAt ((m2.new_representation
      ((posGroupA m.sensitive_feature m.val0 dataset).map List.dropLast)).2) k -
    meanAt ((m2.new_representation
      ((posGroupB m.sensitive_feature m.val0 dataset).map List.dropLast)).2) k
      = 0 := by
  obtain ⟨aA, aB, hA, hB, hm2⟩ := fit_eq_some hfit
  obtain ⟨u, hu, hulen, husf, hucoord⟩ := fit_u_spec hd hsf hfit
  have hms : m2.sensitive_feature = m.sensitive_feature := by rw [hm2]
  have hmv : m2.val0 = m.val0 := by rw [hm2]
  set sf := m.sensitive_feature with hsfdef
  set A := posGroupA sf m.val0 dataset with hAdef
  set B := posGroupB sf m.val0 dataset with hBdef
  set k2 := if k < sf then k else k + 1 with hk2def
  have hk2d : k2 < d - 1 := by rw [hk2def]; split <;> omega
  have hk2sf : k2 ≠ sf := by rw [hk2def]; split <;> omega
  have hBne : (B.length : ℚ) ≠ 0 :=
    Nat.cast_ne_zero.mpr
      (fun h0 => npMean_ne_nil hB (List.length_eq_zero.mp h0))
  have hL : meanAt ((m2.new_representation (A.map List.dropLast)).2) k =
      meanAt A k2 := by
    rw [new_representation_some hu, hms, hmv, List.map_map, List.map_map]
    rw [meanAt_map_congr (fun r => r.getD k2 0) ?_]
    · rfl
    intro r hr
    simp only [Function.comp_apply]
    obtain ⟨hrds, hrlab, hrsf⟩ := mem_posGroupA.mp hr
    have hrlen : r.length = d := hd r hrds
    have hdl : r.dropLast.getD sf 0 = m.val0 := by
      rw [getD_dropLast (by omega), hrsf]
    rw [if_pos hdl,
      getD_eraseIdx_of_length r.dropLast sf k (d - 1)
        (by simp [hrlen]) (by omega) (by omega),
      ← hk2def, getD_dropLast (by omega)]
  have hR : meanAt ((m2.new_representation (B.map List.dropLast)).2) k =
      meanAt B k2 + u.getD k2 0 := by
    rw [new_representation_some hu, hms, hmv, List.map_map, List.map_map]
    rw [meanAt_map_congr (fun r => r.getD k2 0 + u.getD k2 0) ?_]
    · rw [sum_map_add_const B (fun r => r.getD k2 0) (u.getD k2 0)]
      rw [add_div, mul_comm ((B.length : ℚ)) (u.getD k2 0), mul_div_assoc,
        div_self hBne, mul_one]
      rfl
    intro r hr
    simp only [Function.comp_apply]
    obtain ⟨hrds, hrlab, hrsf⟩ := mem_posGroupB.mp hr
    have hrlen : r.length = d := hd r hrds
    have hdl : ¬ r.dropLast.getD sf 0 = m.val0 := by
      rw [getD_dropLast (by omega)]
      exact hrsf
    have hziplen :
        (List.zipWith (fun a b : ℚ => a + b) r.dropLast u).length = d - 1 := by
      rw [List.length_zipWith, List.length_dropLast, hrlen, hulen, min_self]
    rw [if_neg hdl,
      getD_eraseIdx_of_length (List.zipWith (fun a b : ℚ => a + b)
        r.dropLast u) sf k (d - 1) hziplen (by omega) (by omega),
      ← hk2def,
      getD_zipWith_add (by simp [hrlen]; omega) (by omega),
      getD_dropLast (by omega)]
  rw [hL, hR, hucoord k2 hk2d hk2sf]
  ring

/-- Witness for C1 on a concrete 2-row, 3-column dataset: after fitting,
both transformed subgroup means at the single remaining coordinate are 5. -/
theorem new_representation_equalizes_group_means_witness :
    meanAt (((UncorrelationMethod.mk 0 0 (some [-1, -2])).new_representation
      ((posGroupA 0 0 [[0, 5, 1], [1, 7, 1]]).map List.dropLast)).2) 0 -
    meanAt (((UncorrelationMethod.mk 0 0 (some [-1, -2])).new_representation
      ((posGroupB 0 0 [[0, 5, 1], [1, 7, 1]]).map List.dropLast)).2) 0 = 0 :=
  new_representation_equalizes_group_means
    (UncorrelationMethod.mk 0 0 none)
    (UncorrelationMethod.mk 0 0 (some [-1, -2]))
    [[0, 5, 1], [1, 7, 1]] 3
    (by decide) (by decide)
    (by norm_num [UncorrelationMethod.fit, npMean, posGroupA, posGroupB,
      meanAt, List.range_succ])
    0 (by decide)

theorem countP_true_split (pairs : List (ℕ × ℕ))
    (hb : ∀ p ∈ pairs, p.2 = 0 ∨ p.2 = 1) :
    pairs.countP (fun p => decide (p.1 = 1 ∧ p.2 = 1)) +
      pairs.countP (fun p => decide (p.1 = 1 ∧ p.2 = 0)) =
    pairs.countP (fun p => decide (p.1 = 1)) := by
  induction pairs with
  | nil => simp
  | cons p t ih =>
    have ht : ∀ q ∈ t, q.2 = 0 ∨ q.2 = 1 := fun q hq => hb q (by simp [hq])
    have ihh := ih ht
    rw [List.countP_cons, List.countP_cons, List.countP_cons]
    rcases hb p (by simp) with h2 | h2 <;> by_cases h1 : p.1 = 1 <;>
      simp [h1, h2, -Bool.decide_and] <;> omega

theorem pair_snd_binary (truths idxs : List ℕ) {predictions : List ℕ}
    (hbin : ∀ q ∈ predictions, q = 0 ∨ q = 1) :
    ∀ p ∈ truths.zip (predAt predictions idxs), p.2 = 0 ∨ p.2 = 1 := by
  intro p hp
  obtain ⟨p1, p2⟩ := p
  have hp2 : p2 ∈ predAt predictions idxs := (List.of_mem_zip hp).2
  obtain ⟨i, hi, hpi⟩ := List.mem_map.mp hp2
  simp only []
  rw [← hpi]
  by_cases hlt : i < predictions.length
  · rw [getD_eq_get predictions 0 hlt]
    exact hbin _ (List.get_mem predictions i hlt)
  · rw [List.getD_eq_getElem?_getD, List.getElem?_eq_none (by omega)]
    exact Or.inl rfl

/-- C6: `deo_from_list` returns the absolute difference of the two groups'
true-positive rates: `tp / (tp + fn)` computed from the confusion cells
coincides with the fraction of actual positives predicted positive, for any
0/1 prediction vector (sklearn's 2×2 `ravel` presupposes binary labels) with
at least one actual positive among each group's selected rows. -/
theorem deo_from_list_eq_tpr_difference
    (dataset : List (List ℚ)) (predictions : List ℕ)
    (groupA_idxs groupB_idxs : List ℕ)
    (hbin : ∀ q ∈ predictions, q = 0 ∨ q = 1)
    (hApos : 0 < ((binarize (lastColAt dataset groupA_idxs)).zip
      (predAt predictions groupA_idxs)).countP (fun p => decide (p.1 = 1)))
    (hBpos : 0 < ((binarize (lastColAt dataset groupB_idxs)).zip
      (predAt predictions groupB_idxs)).countP (fun p => decide (p.1 = 1))) :
    deo_from_list dataset predictions groupA_idxs groupB_idxs =
      |truePositiveRate ((binarize (lastColAt dataset groupA_idxs)).zip
          (predAt predictions groupA_idxs)) -
        truePositiveRate ((binarize (lastColAt dataset groupB_idxs)).zip
          (predAt predictions groupB_idxs))| := by
  have hsA := countP_true_split _
    (pair_snd_binary (binarize (lastColAt dataset groupA_idxs)) groupA_idxs hbin)
  have hsB := countP_true_split _
    (pair_snd_binary (binarize (lastColAt dataset groupB_idxs)) groupB_idxs hbin)
  simp only [deo_from_list, truePositiveRate, confusionCells]
  rw [← hsA, ← hsB]
  push_cast
  rfl

/-- Witness for C6 on an 8-row dataset whose two groups each realize all
four confusion cells once; both TPRs are 1/2 and the DEO is 0. -/
theorem deo_from_list_eq_tpr_difference_witness :
    deo_from_list [[0], [0], [1], [1], [0], [0], [1], [1]]
        [0, 1, 0, 1, 0, 1, 0, 1] [0, 1, 2, 3] [4, 5, 6, 7] =
      |truePositiveRate ((binarize (lastColAt
            [[0], [0], [1], [1], [0], [0], [1], [1]] [0, 1, 2, 3])).zip
          (predAt [0, 1, 0, 1, 0, 1, 0, 1] [0, 1, 2, 3])) -
        truePositiveRate ((binarize (lastColAt
            [[0], [0], [1], [1], [0], [0], [1], [1]] [4, 5, 6, 7])).zip
          (predAt [0, 1, 0, 1, 0, 1, 0, 1] [4, 5, 6, 7]))| :=
  deo_from_list_eq_tpr_difference
    [[0], [0], [1], [1], [0], [0], [1], [1]]
    [0, 1, 0, 1, 0, 1, 0, 1] [0, 1, 2, 3] [4, 5, 6, 7]
    (by decide) (by decide) (by decide)

end SagemakerFairness
